import Mathlib

/-!
Verification of the Amadeus request-orchestration core
(`skills/amadeus/lib/{auth,cache,client}.py`): the token lifecycle
(`AmadeusAuth`), the TTL/LRU response cache (`ResponseCache`), and the
request executor (`AmadeusClient._make_request`).

Python floats for `time.time()` instants are modelled as `Int`; each
operation receives the current instant `now` explicitly.  Error classes are
modelled by `PyErr` (the source has exactly two: `AuthError` and
`APIError`); exception messages are elided, the `APIError.status_code`
field is kept.  Network behaviour is an explicit oracle (`RefreshOutcome`
for the token endpoint, `Attempt` for resource calls).
-/

namespace Amadeus

/-- A query-parameter value as the scripts pass them: a JSON string or
integer (`json.dumps` serialises these two shapes in `make_key`). -/
inductive PVal where
  | s (v : String)
  | n (v : Int)
deriving DecidableEq

/-! ## JSON serialisation used by `ResponseCache.make_key`
`json.dumps(key_data, sort_keys=True)` with default separators and
`ensure_ascii=True`: keys sorted, `", "` between items, `": "` after keys,
ASCII-only output with the standard short escapes. -/

/-- Lower-case hex digit, as CPython emits in `\uXXXX` escapes. -/
def hexDigit (n : Nat) : Char :=
  if n < 10 then Char.ofNat (48 + n) else Char.ofNat (87 + n)

/-- Four-digit lower-case hex rendering of `n < 65536`. -/
def hex4 (n : Nat) : String :=
  String.mk [hexDigit ((n / 4096) % 16), hexDigit ((n / 256) % 16),
    hexDigit ((n / 16) % 16), hexDigit (n % 16)]

/-- One character of `json.dumps` ASCII output: printable ASCII other than
quote and backslash is literal; `\b \t \n \f \r` are short escapes; all
other code points are `\uXXXX` (surrogate pairs above the BMP). -/
def escapeChar (c : Char) : String :=
  let n := c.toNat
  if c = Char.ofNat 34 then "\\\""
  else if c = Char.ofNat 92 then "\\\\"
  else if n = 8 then "\\b"
  else if n = 9 then "\\t"
  else if n = 10 then "\\n"
  else if n = 12 then "\\f"
  else if n = 13 then "\\r"
  else if n < 32 then "\\u" ++ hex4 n
  else if n < 127 then String.singleton c
  else if n < 65536 then "\\u" ++ hex4 n
  else
    "\\u" ++ hex4 (55296 + (n - 65536) / 1024) ++ "\\u" ++ hex4 (56320 + (n - 65536) % 1024)

/-- A JSON string literal: quoted, escaped. -/
def jsonStr (s : String) : String :=
  "\"" ++ String.join (s.toList.map escapeChar) ++ "\""

/-- Serialise one parameter value. -/
def pvalJson : PVal → String
  | .s v => jsonStr v
  | .n v => toString v

/-- Order of parameter items under `sort_keys=True`: by key. -/
def keyLe (a b : String × PVal) : Prop := a.1 ≤ b.1

instance : DecidableRel keyLe := fun a b => inferInstanceAs (Decidable (a.1 ≤ b.1))

instance : IsTotal (String × PVal) keyLe := ⟨fun a b => le_total a.1 b.1⟩

instance : IsTrans (String × PVal) keyLe := ⟨fun _ _ _ h1 h2 => le_trans h1 h2⟩

/-- `sort_keys=True`: parameter items ordered by key. -/
def sortParams (ps : List (String × PVal)) : List (String × PVal) :=
  ps.insertionSort keyLe

/-- The serialised `params` object, keys sorted. -/
def paramsJson (ps : List (String × PVal)) : String :=
  "\x7b" ++ String.intercalate ", "
    ((sortParams ps).map (fun p => jsonStr p.1 ++ ": " ++ pvalJson p.2)) ++ "\x7d"

/-- `json.dumps({'endpoint': endpoint, 'params': params or {}}, sort_keys=True)`:
the outer keys `endpoint < params` already appear in sorted order. -/
def keyStr (endpoint : String) (ps : List (String × PVal)) : String :=
  "\x7b" ++ jsonStr "endpoint" ++ ": " ++ jsonStr endpoint ++ ", " ++
    jsonStr "params" ++ ": " ++ paramsJson ps ++ "\x7d"

/-! ## SHA-256 (FIPS 180-4), over `Nat` with explicit masking to 32 bits;
`make_key` hashes the canonical serialisation and keeps 16 hex digits. -/

def mask32 (x : Nat) : Nat := x % 4294967296

def rotr32 (n x : Nat) : Nat := mask32 ((x >>> n) ||| (x <<< (32 - n)))

def bnot32 (x : Nat) : Nat := x ^^^ 4294967295

def sigmaBig0 (x : Nat) : Nat := rotr32 2 x ^^^ rotr32 13 x ^^^ rotr32 22 x

def sigmaBig1 (x : Nat) : Nat := rotr32 6 x ^^^ rotr32 11 x ^^^ rotr32 25 x

def sigmaSmall0 (x : Nat) : Nat := rotr32 7 x ^^^ rotr32 18 x ^^^ (x >>> 3)

def sigmaSmall1 (x : Nat) : Nat := rotr32 17 x ^^^ rotr32 19 x ^^^ (x >>> 10)

def chf (x y z : Nat) : Nat := (x &&& y) ^^^ (bnot32 x &&& z)

def majf (x y z : Nat) : Nat := (x &&& y) ^^^ (x &&& z) ^^^ (y &&& z)

/-- The 64 SHA-256 round constants, written in decimal. -/
def K256 : List Nat :=
  [1116352408, 1899447441, 3049323471, 3921009573, 961987163,
   1508970993, 2453635748, 2870763221, 3624381080, 310598401,
   607225278, 1426881987, 1925078388, 2162078206, 2614888103,
   3248222580, 3835390401, 4022224774, 264347078, 604807628,
   770255983, 1249150122, 1555081692, 1996064986, 2554220882,
   2821834349, 2952996808, 3210313671, 3336571891, 3584528711,
   113926993, 338241895, 666307205, 773529912, 1294757372,
   1396182291, 1695183700, 1986661051, 2177026350, 2456956037,
   2730485921, 2820302411, 3259730800, 3345764771, 3516065817,
   3600352804, 4094571909, 275423344, 430227734, 506948616,
   659060556, 883997877, 958139571, 1322822218, 1537002063,
   1747873779, 1955562222, 2024104815, 2227730452, 2361852424,
   2428436474, 2756734187, 3204031479, 3329325298]

/-- The eight SHA-256 initial hash words, written in decimal. -/
def H256 : List Nat :=
  [1779033703, 3144134277, 1013904242, 2773480762,
   1359893119, 2600822924, 528734635, 1541459225]

/-- Append the `0x80` byte, zero padding to 56 mod 64, and the 64-bit
big-endian bit length. -/
def padMessage (msg : List Nat) : List Nat :=
  let L := msg.length
  msg ++ [128] ++ List.replicate ((119 - L % 64) % 64) 0 ++
    (List.range 8).map (fun i => ((8 * L) >>> (8 * (7 - i))) &&& 255)

/-- Big-endian 32-bit words from a byte list. -/
def toWords : List Nat → List Nat
  | b0 :: b1 :: b2 :: b3 :: rest =>
      (b0 * 16777216 + b1 * 65536 + b2 * 256 + b3) :: toWords rest
  | _ => []

/-- One message-schedule extension step. -/
def schedStep (w : List Nat) : List Nat :=
  let n := w.length
  w ++ [mask32 (sigmaSmall1 (w.getD (n - 2) 0) + w.getD (n - 7) 0 +
    sigmaSmall0 (w.getD (n - 15) 0) + w.getD (n - 16) 0)]

/-- The 64-word message schedule of one block. -/
def schedule (w16 : List Nat) : List Nat := (schedStep)^[48] w16

/-- The eight working variables of the compression loop. -/
structure SHAState where
  a : Nat
  b : Nat
  c : Nat
  d : Nat
  e : Nat
  f : Nat
  g : Nat
  h : Nat

/-- One compression round. -/
def shaRound (st : SHAState) (kt wt : Nat) : SHAState :=
  let t1 := mask32 (st.h + sigmaBig1 st.e + chf st.e st.f st.g + kt + wt)
  let t2 := mask32 (sigmaBig0 st.a + majf st.a st.b st.c)
  ⟨mask32 (t1 + t2), st.a, st.b, st.c, mask32 (st.d + t1), st.e, st.f, st.g⟩

/-- Compress one 64-byte block into the hash state. -/
def compress (hs : List Nat) (block : List Nat) : List Nat :=
  let w := schedule (toWords block)
  let st0 : SHAState := ⟨hs.getD 0 0, hs.getD 1 0, hs.getD 2 0, hs.getD 3 0,
    hs.getD 4 0, hs.getD 5 0, hs.getD 6 0, hs.getD 7 0⟩
  let stf := (List.range 64).foldl
    (fun st t => shaRound st (K256.getD t 0) (w.getD t 0)) st0
  [mask32 (hs.getD 0 0 + stf.a), mask32 (hs.getD 1 0 + stf.b),
   mask32 (hs.getD 2 0 + stf.c), mask32 (hs.getD 3 0 + stf.d),
   mask32 (hs.getD 4 0 + stf.e), mask32 (hs.getD 5 0 + stf.f),
   mask32 (hs.getD 6 0 + stf.g), mask32 (hs.getD 7 0 + stf.h)]

/-- Split a (padded) byte list into 64-byte blocks. -/
def chunk64 (l : List Nat) : List (List Nat) :=
  if h : l = [] then []
  else l.take 64 :: chunk64 (l.drop 64)
termination_by l.length
decreasing_by
  simp only [List.length_drop]
  have : 0 < l.length := List.length_pos.mpr h
  omega

/-- SHA-256 digest of a byte list, as eight 32-bit words. -/
def sha256Words (msg : List Nat) : List Nat :=
  (chunk64 (padMessage msg)).foldl compress H256

/-- Eight-hex-digit rendering of a 32-bit word. -/
def hex8 (x : Nat) : String :=
  String.mk ((List.range 8).map (fun i => hexDigit ((x >>> (4 * (7 - i))) &&& 15)))

/-- `hashlib.sha256(...).hexdigest()`. -/
def sha256hex (msg : List Nat) : String :=
  String.join ((sha256Words msg).map hex8)

/-- UTF-8 bytes of a string (`key_str.encode()`). -/
def strBytes (s : String) : List Nat :=
  s.toUTF8.toList.map (fun b => b.toNat)

/-- `hashlib.sha256(key_str.encode()).hexdigest()[:16]`. -/
def sha256hex16 (s : String) : String :=
  (sha256hex (strBytes s)).take 16

/-- `ResponseCache.make_key`: fingerprint of endpoint plus parameters. -/
def make_key (endpoint : String) (params : List (String × PVal)) : String :=
  sha256hex16 (keyStr endpoint params)

/-! ## The error vocabulary of the source
`auth.py` defines `AuthError`; `client.py` defines `APIError` with an
optional `status_code`.  These are the only two exception classes the core
raises.  Messages and the `errors` list are elided. -/

/-- The exception classes raised by the core. -/
inductive PyErr where
  | authError
  | apiError (status : Option Nat)
deriving DecidableEq

/-- The Python class name of an error — what a caller catching broad
exception kinds can distinguish. -/
def PyErr.kind : PyErr → String
  | .authError => "AuthError"
  | .apiError _ => "APIError"

/-! ## `ResponseCache` (cache.py)
`self._cache` is a `dict` mapping key to `(value, expiry, access_time)`;
modelled as an association list in dict iteration (= insertion) order:
update of a present key keeps its position, insertion of a fresh key
appends at the end, deletion removes the entry. -/

/-- Dict lookup (first entry with the key; real dict states have
no duplicate keys). -/
def lookupEntry {α : Type} : List (String × α × Int × Int) → String → Option (α × Int × Int)
  | [], _ => none
  | (k, e) :: rest, key => if k = key then some e else lookupEntry rest key

/-- Dict `__setitem__`: overwrite in place if present, else append. -/
def updateEntry {α : Type} : List (String × α × Int × Int) → String → α × Int × Int →
    List (String × α × Int × Int)
  | [], key, e => [(key, e)]
  | (k, e') :: rest, key, e =>
      if k = key then (key, e) :: rest else (k, e') :: updateEntry rest key e

/-- Dict `del`: drop the entry with the key. -/
def removeEntry {α : Type} : List (String × α × Int × Int) → String →
    List (String × α × Int × Int)
  | [], _ => []
  | (k, e) :: rest, key => if k = key then rest else (k, e) :: removeEntry rest key

/-- Tail of `min(keys, key=access)`: keep the current best unless a
strictly smaller access time appears (Python `min` keeps the first
minimum). -/
def firstMinGo {α : Type} (best : String) (bestAcc : Int) :
    List (String × α × Int × Int) → String
  | [] => best
  | (k, _, _, acc) :: rest =>
      if acc < bestAcc then firstMinGo k acc rest else firstMinGo best bestAcc rest

/-- `min(self._cache.keys(), key=lambda k: self._cache[k][2])` on a
nonempty dict; `none` on the empty one. -/
def firstMinKey {α : Type} : List (String × α × Int × Int) → Option String
  | [] => none
  | (k, _, _, acc) :: rest => some (firstMinGo k acc rest)

/-- `ResponseCache` state: configuration plus the entry dict. -/
structure ResponseCache (α : Type) where
  default_ttl : Int
  max_entries : Nat
  cache : List (String × α × Int × Int)
deriving DecidableEq

/-- `ResponseCache.__init__`. -/
def ResponseCache.init (α : Type) (default_ttl : Int) (max_entries : Nat) :
    ResponseCache α :=
  ⟨default_ttl, max_entries, []⟩

/-- `ResponseCache._evict_oldest`: drop the least-recently-accessed entry
(no-op on an empty dict). -/
def ResponseCache.evict_oldest {α : Type} (c : ResponseCache α) : ResponseCache α :=
  match firstMinKey c.cache with
  | none => c
  | some k => { c with cache := removeEntry c.cache k }

/-- `ResponseCache.get`: miss if absent; lazily delete and miss if
`now > expiry`; otherwise touch the access time and return the value. -/
def ResponseCache.get {α : Type} (c : ResponseCache α) (key : String) (now : Int) :
    Option α × ResponseCache α :=
  match lookupEntry c.cache key with
  | none => (none, c)
  | some (v, expiry, _) =>
      if expiry < now then (none, { c with cache := removeEntry c.cache key })
      else (some v, { c with cache := updateEntry c.cache key (v, expiry, now) })

/-- `ResponseCache.set`: evict first when `len(cache) >= max_entries`,
then insert/overwrite with `expiry = now + ttl` (default TTL when the
argument is `None`). -/
def ResponseCache.set {α : Type} (c : ResponseCache α) (key : String) (v : α)
    (ttl : Option Int) (now : Int) : ResponseCache α :=
  let c1 := if c.max_entries ≤ c.cache.length then c.evict_oldest else c
  let t := ttl.getD c.default_ttl
  { c1 with cache := updateEntry c1.cache key (v, now + t, now) }

/-- `ResponseCache.clear`. -/
def ResponseCache.clear {α : Type} (c : ResponseCache α) : ResponseCache α :=
  { c with cache := [] }

/-- The record `ResponseCache.stats` returns. -/
structure CacheStats where
  total_entries : Nat
  valid_entries : Nat
  expired_entries : Nat
  max_entries : Nat
deriving DecidableEq

/-- `ResponseCache.stats`: a diagnostic read with no side effect. -/
def ResponseCache.stats {α : Type} (c : ResponseCache α) (now : Int) : CacheStats :=
  let valid := (c.cache.filter (fun e => decide (now < e.2.2.1))).length
  ⟨c.cache.length, valid, c.cache.length - valid, c.max_entries⟩

/-! ## `AmadeusAuth` (auth.py)
The token endpoint is an oracle (`RefreshOutcome`): the body fields the
code reads on HTTP 200 are `access_token` and the optional `expires_in`
(default 1799).  A non-200 status and a `requests.RequestException`
(connection, timeout, or the response-JSON decode error) both raise
`AuthError`.  `os.environ` fallbacks are resolved by the caller: the
constructor receives the effective key/secret (`None` when neither the
argument nor the variable is set) and the effective environment selector
(`None` defaulting to `'test'`, matching `os.environ.get('AMADEUS_ENV',
'test')`). -/

/-- Python truthiness of an optional string: `None` and `""` are falsy. -/
def strFalsy : Option String → Bool
  | none => true
  | some s => s.isEmpty

/-- Outcome of one `requests.post` to the token endpoint. -/
inductive RefreshOutcome where
  | success (token : String) (expires_in : Option Int)
  | httpError (status : Nat)
  | transportError
deriving DecidableEq

/-- `AmadeusAuth` state. -/
structure AmadeusAuth where
  api_key : String
  api_secret : String
  env : String
  token : Option String
  token_expiry : Int
deriving DecidableEq

/-- `env or os.environ.get('AMADEUS_ENV', 'test')`: the effective
environment selector (a falsy argument falls back to the default). -/
def envEffective : Option String → String
  | none => "test"
  | some e => if e.isEmpty then "test" else e

/-- `AmadeusAuth.__init__`: missing/empty key or secret, or an environment
outside `TOKEN_URLS = {test, production}`, raises `AuthError` at
construction; otherwise the state starts with no token and expiry 0. -/
def AmadeusAuth.init (api_key api_secret : Option String) (env : Option String) :
    Except PyErr AmadeusAuth :=
  if strFalsy api_key || strFalsy api_secret then .error .authError
  else if envEffective env ≠ "test" ∧ envEffective env ≠ "production" then .error .authError
  else .ok ⟨(api_key.getD ""), (api_secret.getD ""), envEffective env, none, 0⟩

/-- `AmadeusAuth._is_token_valid`: false for a falsy token, else
`now < expiry - 60` (the 60-second skew buffer). -/
def AmadeusAuth.is_token_valid (a : AmadeusAuth) (now : Int) : Bool :=
  match a.token with
  | none => false
  | some t => if t.isEmpty then false else decide (now < a.token_expiry - 60)

/-- `AmadeusAuth._refresh_token`: on success install the new token with
`expiry = now + expires_in` (1799 when absent) and return it; on a non-200
status or a transport failure raise `AuthError`, leaving the stored state
exactly as it was.  Returns (result, post-state). -/
def AmadeusAuth.refresh_token (a : AmadeusAuth) (o : RefreshOutcome) (now : Int) :
    Except PyErr String × AmadeusAuth :=
  match o with
  | .success tok exp =>
      (.ok tok, { a with token := some tok, token_expiry := now + exp.getD 1799 })
  | .httpError _ => (.error .authError, a)
  | .transportError => (.error .authError, a)

/-- `AmadeusAuth.get_token`: return the stored token when still valid
under the skew rule (no network call), else refresh once.  The final
component counts token-endpoint calls made (0 or 1). -/
def AmadeusAuth.get_token (a : AmadeusAuth) (o : RefreshOutcome) (now : Int) :
    Except PyErr String × AmadeusAuth × Nat :=
  if a.is_token_valid now then (.ok (a.token.getD ""), a, 0)
  else
    let (r, a1) := a.refresh_token o now
    (r, a1, 1)

/-- `AmadeusAuth.invalidate`: discard the credential. -/
def AmadeusAuth.invalidate (a : AmadeusAuth) : AmadeusAuth :=
  { a with token := none, token_expiry := 0 }

/-! ## `AmadeusClient._make_request` (client.py)
The transport is an oracle: the outcome of each of the at most two
`requests.request` calls, and the token-endpoint outcome for each of the
at most two refreshes.  A response is a status plus the JSON-parse result
of its body (`none` = decode failure).  The `timeout`, headers, and the
request body do not influence the modelled control flow and are elided. -/

/-- Outcome of one `requests.request` call. -/
inductive Attempt (α : Type) where
  | netFail
  | resp (status : Nat) (body : Option α)
deriving DecidableEq

/-- The network environment of one `_make_request` invocation. -/
structure World (α : Type) where
  attempt1 : Attempt α
  attempt2 : Attempt α
  refresh1 : RefreshOutcome
  refresh2 : RefreshOutcome
  now : Int
deriving DecidableEq

deriving instance DecidableEq for Except

/-- Everything observable after one `_make_request` call. -/
structure RunResult (α : Type) where
  result : Except PyErr α
  auth : AmadeusAuth
  cache : Option (ResponseCache α)
  transport_calls : Nat
  refresh_calls : Nat
deriving DecidableEq

/-- The cache-check step: for a cacheable GET with caching enabled, probe
the cache (which may lazily delete an expired entry); otherwise leave the
cache untouched and report a miss. -/
def cacheProbe {α : Type} (cache : Option (ResponseCache α)) (now : Int)
    (method endpoint : String) (params : List (String × PVal)) (use_cache : Bool) :
    Option α × Option (ResponseCache α) :=
  match cache with
  | none => (none, none)
  | some cc =>
      if method == "GET" && use_cache then
        let (hit, cc1) := cc.get (make_key endpoint params) now
        (hit, some cc1)
      else (none, some cc)

/-- The tail of `_make_request` once a response is in hand: `status >= 400`
raises `APIError` with the status attached; a body that fails to parse
raises `APIError`; otherwise a cacheable GET stores the result before it
is returned. -/
def finishResponse {α : Type} (auth : AmadeusAuth) (cache : Option (ResponseCache α))
    (now : Int) (method endpoint : String) (params : List (String × PVal))
    (use_cache : Bool) (status : Nat) (body : Option α) (tc rc : Nat) : RunResult α :=
  if 400 ≤ status then ⟨.error (.apiError (some status)), auth, cache, tc, rc⟩
  else
    match body with
    | none => ⟨.error (.apiError none), auth, cache, tc, rc⟩
    | some v =>
        let cache1 := match cache with
          | none => none
          | some cc =>
              if method == "GET" && use_cache then
                some (cc.set (make_key endpoint params) v none now)
              else some cc
        ⟨.ok v, auth, cache1, tc, rc⟩

/-- `AmadeusClient._make_request`.  Control flow of the source: cache
check; first authenticated attempt (an `AuthError` from `get_headers`
propagates, a `RequestException` becomes `APIError`); on status 401
invalidate the token and retry exactly once (again `AuthError` propagates,
`RequestException` becomes `APIError`); then the common status/parse/cache
tail on whichever response is current. -/
def make_request {α : Type} (auth : AmadeusAuth) (cache : Option (ResponseCache α))
    (w : World α) (method endpoint : String) (params : List (String × PVal))
    (use_cache : Bool) : RunResult α :=
  match cacheProbe cache w.now method endpoint params use_cache with
  | (some v, cache1) => ⟨.ok v, auth, cache1, 0, 0⟩
  | (none, cache1) =>
      match auth.get_token w.refresh1 w.now with
      | (.error e, auth1, r1) => ⟨.error e, auth1, cache1, 0, r1⟩
      | (.ok _, auth1, r1) =>
          match w.attempt1 with
          | .netFail => ⟨.error (.apiError none), auth1, cache1, 1, r1⟩
          | .resp st1 body1 =>
              if st1 == 401 then
                let auth2 := auth1.invalidate
                match auth2.get_token w.refresh2 w.now with
                | (.error e, auth3, r2) => ⟨.error e, auth3, cache1, 1, r1 + r2⟩
                | (.ok _, auth3, r2) =>
                    match w.attempt2 with
                    | .netFail => ⟨.error (.apiError none), auth3, cache1, 2, r1 + r2⟩
                    | .resp st2 body2 =>
                        finishResponse auth3 cache1 w.now method endpoint params
                          use_cache st2 body2 2 (r1 + r2)
              else
                finishResponse auth1 cache1 w.now method endpoint params
                  use_cache st1 body1 1 r1

/-! ## Association-list lemmas about the dict model -/

theorem lookup_update {α : Type} (l : List (String × α × Int × Int)) (k : String)
    (e : α × Int × Int) : lookupEntry (updateEntry l k e) k = some e := by
  induction l with
  | nil => simp [updateEntry, lookupEntry]
  | cons p rest ih =>
      obtain ⟨k', e'⟩ := p
      by_cases h : k' = k
      · simp [updateEntry, lookupEntry, h]
      · simp [updateEntry, lookupEntry, h, ih]

theorem lookup_none_of_not_mem {α : Type} (l : List (String × α × Int × Int)) (k : String)
    (h : k ∉ l.map Prod.fst) : lookupEntry l k = none := by
  induction l with
  | nil => rfl
  | cons p rest ih =>
      obtain ⟨k', e'⟩ := p
      simp only [List.map_cons, List.mem_cons] at h
      push_neg at h
      simp [lookupEntry, Ne.symm h.1, ih h.2]

theorem lookup_remove_self {α : Type} (l : List (String × α × Int × Int)) (k : String)
    (hnd : (l.map Prod.fst).Nodup) : lookupEntry (removeEntry l k) k = none := by
  induction l with
  | nil => rfl
  | cons p rest ih =>
      obtain ⟨k', e'⟩ := p
      simp only [List.map_cons, List.nodup_cons] at hnd
      by_cases h : k' = k
      · subst h
        simpa [removeEntry] using lookup_none_of_not_mem rest k' hnd.1
      · simp [removeEntry, lookupEntry, h, ih hnd.2]

theorem removeEntry_sublist {α : Type} (l : List (String × α × Int × Int)) (k : String) :
    List.Sublist (removeEntry l k) l := by
  induction l with
  | nil => simp [removeEntry]
  | cons p rest ih =>
      obtain ⟨k', e'⟩ := p
      by_cases h : k' = k
      · simpa [removeEntry, h] using List.sublist_cons_self (k', e') rest
      · simpa [removeEntry, h] using ih.cons₂ (k', e')

theorem nodup_keys_remove {α : Type} (l : List (String × α × Int × Int)) (k : String)
    (hnd : (l.map Prod.fst).Nodup) : ((removeEntry l k).map Prod.fst).Nodup :=
  ((removeEntry_sublist l k).map Prod.fst).nodup hnd

theorem keys_update_subset {α : Type} (l : List (String × α × Int × Int)) (k : String)
    (e : α × Int × Int) (j : String) (hj : j ∈ (updateEntry l k e).map Prod.fst) :
    j ∈ l.map Prod.fst ∨ j = k := by
  induction l with
  | nil => simpa [updateEntry] using hj
  | cons p rest ih =>
      obtain ⟨k', e'⟩ := p
      by_cases h : k' = k
      · have hu : updateEntry ((k', e') :: rest) k e = (k, e) :: rest := by
          simp [updateEntry, h]
        rw [hu] at hj
        simp only [List.map_cons, List.mem_cons] at hj ⊢
        tauto
      · simp only [updateEntry, if_neg h, List.map_cons, List.mem_cons] at hj ⊢
        rcases hj with hj | hj
        · exact Or.inl (Or.inl hj)
        · rcases ih hj with hj' | hj'
          · exact Or.inl (Or.inr hj')
          · exact Or.inr hj'

theorem nodup_keys_update {α : Type} (l : List (String × α × Int × Int)) (k : String)
    (e : α × Int × Int) (hnd : (l.map Prod.fst).Nodup) :
    ((updateEntry l k e).map Prod.fst).Nodup := by
  induction l with
  | nil => simp [updateEntry]
  | cons p rest ih =>
      obtain ⟨k', e'⟩ := p
      simp only [List.map_cons, List.nodup_cons] at hnd
      by_cases h : k' = k
      · have hu : updateEntry ((k', e') :: rest) k e = (k, e) :: rest := by
          simp [updateEntry, h]
        rw [hu]
        simp only [List.map_cons, List.nodup_cons]
        exact ⟨h ▸ hnd.1, hnd.2⟩
      · simp only [updateEntry, if_neg h, List.map_cons, List.nodup_cons]
        refine ⟨fun hc => ?_, ih hnd.2⟩
        rcases keys_update_subset rest k e k' hc with hm | hm
        · exact hnd.1 hm
        · exact h hm

theorem update_of_lookup_none {α : Type} (l : List (String × α × Int × Int)) (k : String)
    (e : α × Int × Int) (h : lookupEntry l k = none) : updateEntry l k e = l ++ [(k, e)] := by
  induction l with
  | nil => rfl
  | cons p rest ih =>
      obtain ⟨k', e'⟩ := p
      by_cases hk : k' = k
      · simp [lookupEntry, hk] at h
      · simp only [lookupEntry, if_neg hk] at h
        simp [updateEntry, hk, ih h]

theorem length_update_of_lookup_some {α : Type} (l : List (String × α × Int × Int))
    (k : String) (e e' : α × Int × Int) (h : lookupEntry l k = some e') :
    (updateEntry l k e).length = l.length := by
  induction l with
  | nil => simp [lookupEntry] at h
  | cons p rest ih =>
      obtain ⟨k', e''⟩ := p
      by_cases hk : k' = k
      · simp [updateEntry, hk]
      · simp only [lookupEntry, if_neg hk] at h
        simp [updateEntry, hk, ih h]

theorem length_remove_of_mem {α : Type} (l : List (String × α × Int × Int)) (k : String)
    (h : k ∈ l.map Prod.fst) : (removeEntry l k).length + 1 = l.length := by
  induction l with
  | nil => simp at h
  | cons p rest ih =>
      obtain ⟨k', e'⟩ := p
      by_cases hk : k' = k
      · simp [removeEntry, hk]
      · simp only [List.map_cons, List.mem_cons] at h
        rcases h with h | h
        · exact absurd h.symm hk
        · simp [removeEntry, hk, ih h]

theorem firstMinGo_mem {α : Type} (l : List (String × α × Int × Int)) (best : String)
    (bestAcc : Int) : firstMinGo best bestAcc l = best ∨
      firstMinGo best bestAcc l ∈ l.map Prod.fst := by
  induction l generalizing best bestAcc with
  | nil => exact Or.inl rfl
  | cons p rest ih =>
      obtain ⟨k, v, ex, acc⟩ := p
      simp only [firstMinGo, List.map_cons, List.mem_cons]
      by_cases h : acc < bestAcc
      · rw [if_pos h]
        rcases ih k acc with h' | h'
        · exact Or.inr (Or.inl h')
        · exact Or.inr (Or.inr h')
      · rw [if_neg h]
        rcases ih best bestAcc with h' | h'
        · exact Or.inl h'
        · exact Or.inr (Or.inr h')

theorem firstMinKey_mem {α : Type} (l : List (String × α × Int × Int)) (k : String)
    (h : firstMinKey l = some k) : k ∈ l.map Prod.fst := by
  cases l with
  | nil => simp [firstMinKey] at h
  | cons p rest =>
      obtain ⟨k', v, ex, acc⟩ := p
      simp only [firstMinKey, Option.some.injEq] at h
      subst h
      simp only [List.map_cons, List.mem_cons]
      rcases firstMinGo_mem rest k' acc with h' | h'
      · exact Or.inl h'
      · exact Or.inr h'

/-! ## Canonical ordering of the fingerprint serialisation -/

theorem sortParams_eq_of_perm (ps1 ps2 : List (String × PVal)) (hp : ps1.Perm ps2)
    (hnd : (ps1.map Prod.fst).Nodup) : sortParams ps1 = sortParams ps2 := by
  have hperm : (sortParams ps1).Perm (sortParams ps2) :=
    ((List.perm_insertionSort keyLe ps1).trans hp).trans
      (List.perm_insertionSort keyLe ps2).symm
  have hnd1 : ((sortParams ps1).map Prod.fst).Nodup :=
    (((List.perm_insertionSort keyLe ps1).map Prod.fst).nodup_iff).mpr hnd
  have hnd2 : ((sortParams ps2).map Prod.fst).Nodup :=
    ((hperm.map Prod.fst).nodup_iff).mp hnd1
  have hs1 : (sortParams ps1).Sorted keyLe := List.sorted_insertionSort keyLe ps1
  have hs2 : (sortParams ps2).Sorted keyLe := List.sorted_insertionSort keyLe ps2
  have hlt1 : (sortParams ps1).Pairwise (fun a b => a.1 < b.1) := by
    have hne : (sortParams ps1).Pairwise (fun a b => a.1 ≠ b.1) := by
      rw [List.Nodup, List.pairwise_map] at hnd1
      exact hnd1
    exact (List.Pairwise.and hs1 hne).imp (fun h => lt_of_le_of_ne h.1 h.2)
  have hlt2 : (sortParams ps2).Pairwise (fun a b => a.1 < b.1) := by
    have hne : (sortParams ps2).Pairwise (fun a b => a.1 ≠ b.1) := by
      rw [List.Nodup, List.pairwise_map] at hnd2
      exact hnd2
    exact (List.Pairwise.and hs2 hne).imp (fun h => lt_of_le_of_ne h.1 h.2)
  haveI : IsAntisymm (String × PVal) (fun a b => a.1 < b.1) :=
    ⟨fun _ _ h1 h2 => absurd h2 (lt_asymm h1)⟩
  exact List.eq_of_perm_of_sorted hperm hlt1 hlt2

/-- Claim C3: for every endpoint and every pair of parameter maps equal as
sets of key-value pairs (irrespective of insertion order), `make_key`
produces identical fingerprints. -/
theorem c3_make_key_order_independent (e : String) (ps1 ps2 : List (String × PVal))
    (hp : ps1.Perm ps2) (hnd : (ps1.map Prod.fst).Nodup) :
    make_key e ps1 = make_key e ps2 := by
  unfold make_key keyStr paramsJson
  rw [sortParams_eq_of_perm ps1 ps2 hp hnd]

/-- Witness for C3 at a concrete pair of reordered parameter maps. -/
theorem c3_make_key_order_independent_witness :
    ([(("adults" : String), PVal.n 1), (("origin" : String), PVal.s "BCN")].Perm
      [(("origin" : String), PVal.s "BCN"), (("adults" : String), PVal.n 1)]) ∧
    (([(("adults" : String), PVal.n 1), (("origin" : String), PVal.s "BCN")].map
      Prod.fst).Nodup) ∧
    make_key "/v2/shopping/flight-offers"
        [(("adults" : String), PVal.n 1), (("origin" : String), PVal.s "BCN")] =
      make_key "/v2/shopping/flight-offers"
        [(("origin" : String), PVal.s "BCN"), (("adults" : String), PVal.n 1)] :=
  ⟨by decide, by decide,
    c3_make_key_order_independent "/v2/shopping/flight-offers" _ _ (by decide) (by decide)⟩

/-- Claim C4: a value stored with TTL `t` at instant `now0` is returned
unchanged by a `get` at any `now1` before expiry (`now1 < now0 + t`),
while a `get` after the TTL has elapsed misses and removes the entry. -/
theorem c4_ttl_roundtrip {α : Type} (c : ResponseCache α) (k : String) (v : α)
    (t now0 now1 : Int) (hnd : (c.cache.map Prod.fst).Nodup) :
    (now1 < now0 + t → ((c.set k v (some t) now0).get k now1).1 = some v) ∧
    (now0 + t < now1 →
      ((c.set k v (some t) now0).get k now1).1 = none ∧
      lookupEntry ((c.set k v (some t) now0).get k now1).2.cache k = none) := by
  have hset : (c.set k v (some t) now0).cache =
      updateEntry (if c.max_entries ≤ c.cache.length then c.evict_oldest else c).cache
        k (v, now0 + t, now0) := by
    simp [ResponseCache.set]
  have hnd1 : (((if c.max_entries ≤ c.cache.length then c.evict_oldest else c).cache.map
      Prod.fst)).Nodup := by
    split
    · unfold ResponseCache.evict_oldest
      cases hfm : firstMinKey c.cache with
      | none => exact hnd
      | some j => exact nodup_keys_remove c.cache j hnd
    · exact hnd
  have hlook : lookupEntry (c.set k v (some t) now0).cache k = some (v, now0 + t, now0) := by
    rw [hset]; exact lookup_update _ _ _
  have hndset : ((c.set k v (some t) now0).cache.map Prod.fst).Nodup := by
    rw [hset]; exact nodup_keys_update _ _ _ hnd1
  constructor
  · intro hlt
    unfold ResponseCache.get
    rw [hlook]
    simp only []
    rw [if_neg (by omega)]
  · intro hgt
    unfold ResponseCache.get
    rw [hlook]
    simp only []
    rw [if_pos (by omega)]
    exact ⟨rfl, lookup_remove_self _ _ hndset⟩

/-- Witness for C4 at a concrete insertion and two probe instants. -/
theorem c4_ttl_roundtrip_witness :
    ((([] : List (String × Nat × Int × Int)).map Prod.fst).Nodup) ∧
    ((100 : Int) < 0 + 900 →
      (((ResponseCache.init Nat 900 1000).set "k" 5 (some 900) 0).get "k" 100).1 = some 5) ∧
    ((0 : Int) + 900 < 901 →
      ((((ResponseCache.init Nat 900 1000).set "k" 5 (some 900) 0).get "k" 901).1 = none ∧
      lookupEntry (((ResponseCache.init Nat 900 1000).set "k" 5
        (some 900) 0).get "k" 901).2.cache "k" = none)) :=
  ⟨by decide,
    (c4_ttl_roundtrip (ResponseCache.init Nat 900 1000) "k" 5 900 0 100 (by decide)).1,
    (c4_ttl_roundtrip (ResponseCache.init Nat 900 1000) "k" 5 900 0 901 (by decide)).2⟩

/-! ## LRU eviction and the capacity bound -/

/-- A sequence of `set` calls with per-call instants (a script inserting
keys one after another). -/
def runSets {α : Type} (c : ResponseCache α) (ops : List (String × α × Int)) :
    ResponseCache α :=
  ops.foldl (fun acc op => acc.set op.1 op.2.1 none op.2.2) c

theorem runSets_cons {α : Type} (c : ResponseCache α) (p : String × α × Int)
    (rest : List (String × α × Int)) :
    runSets c (p :: rest) = runSets (c.set p.1 p.2.1 none p.2.2) rest := rfl

theorem runSets_append {α : Type} (c : ResponseCache α) (l1 l2 : List (String × α × Int)) :
    runSets c (l1 ++ l2) = runSets (runSets c l1) l2 := by
  unfold runSets
  rw [List.foldl_append]

theorem set_no_evict {α : Type} (c : ResponseCache α) (k : String) (v : α)
    (ttl : Option Int) (now : Int) (h : c.cache.length < c.max_entries) :
    c.set k v ttl now =
      { c with cache := updateEntry c.cache k (v, now + ttl.getD c.default_ttl, now) } := by
  unfold ResponseCache.set
  rw [if_neg (Nat.not_le.mpr h)]

theorem set_at_capacity {α : Type} (c : ResponseCache α) (k : String) (v : α)
    (ttl : Option Int) (now : Int) (h : c.max_entries ≤ c.cache.length) :
    c.set k v ttl now =
      { c.evict_oldest with
          cache := updateEntry c.evict_oldest.cache k
            (v, now + ttl.getD c.default_ttl, now) } := by
  unfold ResponseCache.set
  rw [if_pos h]

theorem runSets_fresh_fill {α : Type} (ops : List (String × α × Int))
    (c : ResponseCache α) (hcap : c.cache.length + ops.length ≤ c.max_entries)
    (hfresh : ∀ p ∈ ops, p.1 ∉ c.cache.map Prod.fst)
    (hnd : (ops.map (fun p => p.1)).Nodup) :
    runSets c ops =
      { c with
          cache := c.cache ++
            ops.map (fun p => (p.1, p.2.1, p.2.2 + c.default_ttl, p.2.2)) } := by
  induction ops generalizing c with
  | nil => simp [runSets]
  | cons p rest ih =>
      have hlt : c.cache.length < c.max_entries := by
        simp only [List.length_cons] at hcap
        omega
      have hlook : lookupEntry c.cache p.1 = none :=
        lookup_none_of_not_mem _ _ (hfresh p (List.mem_cons_self p rest))
      have hstep : c.set p.1 p.2.1 none p.2.2 =
          { c with cache := c.cache ++ [(p.1, p.2.1, p.2.2 + c.default_ttl, p.2.2)] } := by
        rw [set_no_evict c _ _ _ _ hlt, update_of_lookup_none _ _ _ hlook]
        rfl
      simp only [List.map_cons, List.nodup_cons] at hnd
      rw [runSets_cons, hstep]
      rw [ih]
      · simp
      · simp only [List.length_append, List.length_singleton]
        simp only [List.length_cons] at hcap
        omega
      · intro q hq
        simp only [List.map_append, List.map_cons, List.map_nil, List.mem_append,
          List.mem_singleton]
        push_neg
        refine ⟨hfresh q (List.mem_cons_of_mem p hq), fun hc => ?_⟩
        exact hnd.1 (hc ▸ List.mem_map_of_mem (fun p => p.1) hq)
      · exact hnd.2

theorem firstMinGo_of_le {α : Type} (l : List (String × α × Int × Int)) (best : String)
    (bestAcc : Int) (h : ∀ p ∈ l, bestAcc ≤ p.2.2.2) :
    firstMinGo best bestAcc l = best := by
  induction l with
  | nil => rfl
  | cons p rest ih =>
      obtain ⟨k, v, ex, acc⟩ := p
      have hacc : bestAcc ≤ acc := h (k, v, ex, acc) (List.mem_cons_self _ _)
      simp only [firstMinGo, if_neg (not_lt.mpr hacc)]
      exact ih (fun q hq => h q (List.mem_cons_of_mem _ hq))

theorem firstMinKey_head_min {α : Type} (k : String) (v : α) (ex acc : Int)
    (rest : List (String × α × Int × Int)) (h : ∀ p ∈ rest, acc ≤ p.2.2.2) :
    firstMinKey ((k, v, ex, acc) :: rest) = some k := by
  simp only [firstMinKey, Option.some.injEq]
  exact firstMinGo_of_le rest k acc h

theorem keys_update_mem {α : Type} (l : List (String × α × Int × Int)) (k : String)
    (e : α × Int × Int) (j : String) (hj : j ∈ l.map Prod.fst) :
    j ∈ (updateEntry l k e).map Prod.fst := by
  induction l with
  | nil => simp at hj
  | cons p rest ih =>
      obtain ⟨k', e'⟩ := p
      by_cases h : k' = k
      · have hu : updateEntry ((k', e') :: rest) k e = (k, e) :: rest := by
          simp [updateEntry, h]
        rw [hu]
        simp only [List.map_cons, List.mem_cons] at hj ⊢
        rcases hj with hj | hj
        · exact Or.inl (h ▸ hj)
        · exact Or.inr hj
      · simp only [updateEntry, if_neg h, List.map_cons, List.mem_cons] at hj ⊢
        rcases hj with hj | hj
        · exact Or.inl hj
        · exact Or.inr (ih hj)

theorem keys_remove_mem {α : Type} (l : List (String × α × Int × Int)) (k : String)
    (j : String) (hj : j ∈ l.map Prod.fst) (hne : j ≠ k) :
    j ∈ (removeEntry l k).map Prod.fst := by
  induction l with
  | nil => simp at hj
  | cons p rest ih =>
      obtain ⟨k', e'⟩ := p
      simp only [List.map_cons, List.mem_cons] at hj
      by_cases h : k' = k
      · simp only [removeEntry, if_pos h]
        rcases hj with hj | hj
        · exact absurd (hj.trans h) hne
        · exact hj
      · simp only [removeEntry, if_neg h, List.map_cons, List.mem_cons]
        rcases hj with hj | hj
        · exact Or.inl hj
        · exact Or.inr (ih hj)

theorem length_update_le {α : Type} (l : List (String × α × Int × Int)) (k : String)
    (e : α × Int × Int) : (updateEntry l k e).length ≤ l.length + 1 := by
  induction l with
  | nil => simp [updateEntry]
  | cons p rest ih =>
      obtain ⟨k', e'⟩ := p
      by_cases h : k' = k
      · simp [updateEntry, h]
      · simp only [updateEntry, if_neg h, List.length_cons]
        omega

/-- Claim C5 counterexample as stated: for a cache of capacity `N = 0`,
inserting `N + 1 = 1` distinct keys leaves 1 entry, not `N = 0`. -/
theorem c5_capacity_zero_counterexample :
    (runSets (ResponseCache.init Nat 900 0) [("a", 1, 0)]).cache.length = 1 ∧
    (runSets (ResponseCache.init Nat 900 0) [("a", 1, 0)]).cache.length ≠ 0 := by
  decide

/-- Claim C5 (amended: capacity `N ≥ 1`): inserting `N + 1` distinct keys
at strictly increasing instants into an empty cache of capacity `N` leaves
exactly `N` entries, the evicted entry being the first inserted — the one
with the oldest last-access instant; moreover a `get` hit rewrites the
entry's last-access instant to `now`, and any entry that is not the
first-minimal-access one survives a subsequent `set`. -/
theorem c5_lru_eviction {α : Type} (N : Nat) (ttl : Int) (ops : List (String × α × Int))
    (hN : 1 ≤ N) (hlen : ops.length = N + 1)
    (hnd : (ops.map (fun p => p.1)).Nodup)
    (htimes : ops.Pairwise (fun p q => p.2.2 < q.2.2)) :
    ((runSets (ResponseCache.init α ttl N) ops).cache =
        (ops.drop 1).map (fun p => (p.1, p.2.1, p.2.2 + ttl, p.2.2)) ∧
      (runSets (ResponseCache.init α ttl N) ops).cache.length = N) ∧
    (∀ (c : ResponseCache α) (k : String) (v : α) (exp acc now : Int),
      lookupEntry c.cache k = some (v, exp, acc) → ¬ exp < now →
      (c.get k now).2.cache = updateEntry c.cache k (v, exp, now)) ∧
    (∀ (c : ResponseCache α) (k' : String) (v' : α) (now : Int) (j : String),
      j ∈ c.cache.map Prod.fst → firstMinKey c.cache ≠ some j →
      j ∈ ((c.set k' v' none now).cache.map Prod.fst)) := by
  refine ⟨?_, ?_, ?_⟩
  · -- the N+1 insertion scenario
    have hne : ops ≠ [] := by
      intro hc
      rw [hc] at hlen
      simp at hlen
    have hsplit : ops.dropLast ++ [ops.getLast hne] = ops :=
      List.dropLast_append_getLast hne
    have hflen : ops.dropLast.length = N := by
      rw [List.length_dropLast, hlen]
      omega
    obtain ⟨q, qs, hqs⟩ : ∃ q qs, ops.dropLast = q :: qs := by
      cases hfront : ops.dropLast with
      | nil => rw [hfront] at hflen; simp at hflen; omega
      | cons q qs => exact ⟨q, qs, rfl⟩
    have hnd' := hnd
    rw [← hsplit] at hnd'
    simp only [List.map_append, List.map_cons, List.map_nil, List.nodup_append] at hnd'
    have htimes' := htimes
    rw [← hsplit] at htimes'
    have hfrontPW : ops.dropLast.Pairwise (fun p q => p.2.2 < q.2.2) :=
      (List.pairwise_append.mp htimes').1
    have hfill := runSets_fresh_fill ops.dropLast (ResponseCache.init α ttl N)
      (by simp [ResponseCache.init, hflen]) (by simp [ResponseCache.init]) hnd'.1
    have hcache : (runSets (ResponseCache.init α ttl N) ops.dropLast).cache =
        ops.dropLast.map (fun p => (p.1, p.2.1, p.2.2 + ttl, p.2.2)) := by
      rw [hfill]
      simp [ResponseCache.init]
    have hmax : (runSets (ResponseCache.init α ttl N) ops.dropLast).max_entries = N := by
      rw [hfill]
      rfl
    have httl : (runSets (ResponseCache.init α ttl N) ops.dropLast).default_ttl = ttl := by
      rw [hfill]
      rfl
    have hrun : runSets (ResponseCache.init α ttl N) ops =
        (runSets (ResponseCache.init α ttl N) ops.dropLast).set
          (ops.getLast hne).1 (ops.getLast hne).2.1 none (ops.getLast hne).2.2 := by
      conv_lhs => rw [← hsplit]
      rw [runSets_append]
      rfl
    have hfullLen : (runSets (ResponseCache.init α ttl N) ops.dropLast).cache.length = N := by
      rw [hcache, List.length_map, hflen]
    have hmin : firstMinKey (runSets (ResponseCache.init α ttl N) ops.dropLast).cache =
        some q.1 := by
      rw [hcache, hqs]
      simp only [List.map_cons]
      refine firstMinKey_head_min q.1 q.2.1 (q.2.2 + ttl) q.2.2 _ ?_
      intro p hp
      simp only [List.mem_map] at hp
      obtain ⟨r, hr, hrp⟩ := hp
      have : q.2.2 < r.2.2 := by
        rw [hqs] at hfrontPW
        exact (List.pairwise_cons.mp hfrontPW).1 r hr
      rw [← hrp]
      exact le_of_lt this
    have hevict : (runSets (ResponseCache.init α ttl N) ops.dropLast).evict_oldest.cache =
        qs.map (fun p => (p.1, p.2.1, p.2.2 + ttl, p.2.2)) := by
      unfold ResponseCache.evict_oldest
      rw [hmin]
      simp only []
      rw [hcache, hqs]
      simp [removeEntry]
    have hops : ops = q :: (qs ++ [ops.getLast hne]) := by
      conv_lhs => rw [← hsplit, hqs]
      rfl
    have hndtail : ((qs ++ [ops.getLast hne]).map (fun p => p.1)).Nodup := by
      have hnd2 := hnd
      rw [hops] at hnd2
      simp only [List.map_cons, List.nodup_cons] at hnd2
      exact hnd2.2
    have hlastNotQs : (ops.getLast hne).1 ∉ qs.map (fun p => p.1) := by
      rw [List.map_append] at hndtail
      have hd := (List.nodup_append.mp hndtail).2.2
      intro hc
      exact hd hc (by simp)
    have hlastFresh : lookupEntry
        (qs.map (fun p => (p.1, p.2.1, p.2.2 + ttl, p.2.2))) (ops.getLast hne).1 = none := by
      apply lookup_none_of_not_mem
      intro hc
      apply hlastNotQs
      simpa [List.map_map, Function.comp] using hc
    have hdrop : ops.drop 1 = qs ++ [ops.getLast hne] := by
      conv_lhs => rw [hops]
      rfl
    have hfullCap : (runSets (ResponseCache.init α ttl N) ops.dropLast).max_entries ≤
        (runSets (ResponseCache.init α ttl N) ops.dropLast).cache.length := by
      rw [hfullLen, hmax]
    constructor
    · rw [hrun, set_at_capacity _ _ _ _ _ hfullCap, hevict]
      rw [update_of_lookup_none _ _ _ hlastFresh]
      rw [hdrop, httl]
      simp [List.map_append]
    · rw [hrun, set_at_capacity _ _ _ _ _ hfullCap, hevict]
      rw [update_of_lookup_none _ _ _ hlastFresh]
      simp only [List.length_append, List.length_map, List.length_singleton]
      have hqslen : qs.length = N - 1 := by
        have := hflen
        rw [hqs] at this
        simp only [List.length_cons] at this
        omega
      omega
  · -- get on a hit touches the access instant
    intro c k v exp acc now hlook hexp
    unfold ResponseCache.get
    rw [hlook]
    simp only []
    rw [if_neg hexp]
  · -- a non-minimal entry survives an insertion
    intro c k' v' now j hj hmin
    by_cases hcap : c.max_entries ≤ c.cache.length
    · rw [set_at_capacity c k' v' none now hcap]
      apply keys_update_mem
      unfold ResponseCache.evict_oldest
      cases hfm : firstMinKey c.cache with
      | none => exact hj
      | some k0 =>
          apply keys_remove_mem c.cache k0 j hj
          intro hc
          exact hmin (hc ▸ hfm)
    · rw [set_no_evict c k' v' none now (Nat.not_le.mp hcap)]
      exact keys_update_mem c.cache k' _ j hj

/-- Witness for C5 at capacity 2 with three distinct keys inserted at
instants 0, 1, 2: the first-inserted entry is evicted. -/
theorem c5_lru_eviction_witness :
    (1 ≤ 2) ∧
    (([("a", 25, 0), ("b", 26, 1), ("c", 27, 2)] : List (String × Nat × Int)).length
      = 2 + 1) ∧
    ((([("a", 25, 0), ("b", 26, 1), ("c", 27, 2)] : List (String × Nat × Int)).map
      (fun p => p.1)).Nodup) ∧
    (([("a", 25, 0), ("b", 26, 1), ("c", 27, 2)] : List (String × Nat × Int)).Pairwise
      (fun p q => p.2.2 < q.2.2)) ∧
    (runSets (ResponseCache.init Nat 900 2)
        [("a", 25, 0), ("b", 26, 1), ("c", 27, 2)]).cache =
      [("b", 26, 901, 1), ("c", 27, 902, 2)] :=
  ⟨by decide, by decide, by decide, by decide, by
    have h := (c5_lru_eviction 2 900 [("a", 25, 0), ("b", 26, 1), ("c", 27, 2)]
      (by decide) (by decide) (by decide) (by decide)).1.1
    rw [h]
    decide⟩

/-- Claim C10 counterexample as stated: with `max_entries = 0`, a single
`set` leaves one entry, exceeding the configured capacity. -/
theorem c10_capacity_zero_counterexample :
    ((ResponseCache.init Nat 900 0).set "a" 1 none 0).cache.length = 1 ∧
    ¬ (((ResponseCache.init Nat 900 0).set "a" 1 none 0).cache.length ≤
      ((ResponseCache.init Nat 900 0).set "a" 1 none 0).max_entries) := by
  decide

/-- Claim C10 (amended: requires `max_entries ≥ 1`): when the entry count
is at most `max_entries`, it stays so after `set`, `get` and `clear`; and
`set` evicts (the first-minimal-access entry) before inserting whenever the
map holds at least `max_entries` entries — with no condition on whether the
key being set is already present. -/
theorem c10_capacity_invariant {α : Type} (c : ResponseCache α) (k : String) (v : α)
    (ttl : Option Int) (now : Int) (hinv : c.cache.length ≤ c.max_entries)
    (hpos : 1 ≤ c.max_entries) :
    ((c.set k v ttl now).cache.length ≤ c.max_entries) ∧
    ((c.get k now).2.cache.length ≤ c.max_entries) ∧
    (c.clear.cache.length ≤ c.max_entries) ∧
    (c.max_entries ≤ c.cache.length →
      c.set k v ttl now =
        { c.evict_oldest with
            cache := updateEntry c.evict_oldest.cache k
              (v, now + ttl.getD c.default_ttl, now) }) := by
  refine ⟨?_, ?_, ?_, fun hcap => set_at_capacity c k v ttl now hcap⟩
  · by_cases hcap : c.max_entries ≤ c.cache.length
    · rw [set_at_capacity c k v ttl now hcap]
      have hlen : c.max_entries = c.cache.length := le_antisymm hcap hinv
      have hne : c.cache ≠ [] := by
        intro hc
        rw [hc] at hlen
        simp at hlen
        omega
      obtain ⟨p, rest, hp⟩ := List.exists_cons_of_ne_nil hne
      have hfm : ∃ k0, firstMinKey c.cache = some k0 := by
        rw [hp]
        obtain ⟨k', v', ex', acc'⟩ := p
        exact ⟨_, rfl⟩
      obtain ⟨k0, hk0⟩ := hfm
      have hk0mem := firstMinKey_mem c.cache k0 hk0
      have hevlen : c.evict_oldest.cache.length + 1 = c.cache.length := by
        unfold ResponseCache.evict_oldest
        rw [hk0]
        exact length_remove_of_mem c.cache k0 hk0mem
      have hup := length_update_le c.evict_oldest.cache k
        (v, now + ttl.getD c.default_ttl, now)
      simp only []
      omega
    · rw [set_no_evict c k v ttl now (Nat.not_le.mp hcap)]
      have hup := length_update_le c.cache k (v, now + ttl.getD c.default_ttl, now)
      simp only []
      omega
  · unfold ResponseCache.get
    cases hl : lookupEntry c.cache k with
    | none => exact hinv
    | some e =>
        obtain ⟨v', ex', acc'⟩ := e
        simp only []
        by_cases hexp : ex' < now
        · rw [if_pos hexp]
          have hsub := (removeEntry_sublist c.cache k).length_le
          simp only []
          omega
        · rw [if_neg hexp]
          have heq := length_update_of_lookup_some c.cache k (v', ex', now)
            (v', ex', acc') hl
          simp only []
          omega
  · simpa [ResponseCache.clear] using Nat.zero_le c.max_entries

/-- Witness for C10 at a concrete cache of capacity 1 holding one entry. -/
theorem c10_capacity_invariant_witness :
    ((((ResponseCache.init Nat 900 1).set "a" 1 none 0).cache.length ≤
      ((ResponseCache.init Nat 900 1).set "a" 1 none 0).max_entries)) ∧
    (1 ≤ ((ResponseCache.init Nat 900 1).set "a" 1 none 0).max_entries) ∧
    ((((ResponseCache.init Nat 900 1).set "a" 1 none 0).set "b" 2 none 1).cache.length ≤
      ((ResponseCache.init Nat 900 1).set "a" 1 none 0).max_entries) :=
  ⟨by decide, by decide,
    (c10_capacity_invariant ((ResponseCache.init Nat 900 1).set "a" 1 none 0) "b" 2 none 1
      (by decide) (by decide)).1⟩

/-! ## Token lifecycle claims -/

/-- Claim C6 counterexample as stated: after `invalidate`, a refresh whose
declared `expires_in` is 30 makes `get_token` return a token that is
already expired under the 60-second skew rule (`now = 1000`, expiry 1030,
and `1000 < 1030 - 60` fails). -/
theorem c6_skew_counterexample :
    ((AmadeusAuth.mk "k" "s" "test" none 0).invalidate.get_token
        (.success "tok" (some 30)) 1000).1 = .ok "tok" ∧
    ¬ ((1000 : Int) <
      ((AmadeusAuth.mk "k" "s" "test" none 0).invalidate.get_token
        (.success "tok" (some 30)) 1000).2.1.token_expiry - 60) := by
  decide

/-- Claim C6 (amended): within the skew window `get_token` returns the
stored token unchanged with no token-endpoint call, on both of two calls;
after `invalidate` the next `get_token` performs exactly one refresh; a
token served from the cache always satisfies the skew rule, and a freshly
refreshed token satisfies it provided the endpoint's declared `expires_in`
exceeds the 60-second skew buffer. -/
theorem c6_token_reuse (a : AmadeusAuth) (o1 o2 : RefreshOutcome) (now1 now2 : Int)
    (t : String) (htok : a.token = some t)
    (hv1 : a.is_token_valid now1 = true) (hv2 : a.is_token_valid now2 = true) :
    (a.get_token o1 now1 = (.ok t, a, 0) ∧ a.get_token o2 now2 = (.ok t, a, 0)) ∧
    (∀ (o : RefreshOutcome) (now : Int), (a.invalidate.get_token o now).2.2 = 1) ∧
    (now1 < a.token_expiry - 60) ∧
    (∀ (tok : String) (e now : Int), 60 < e →
      (a.invalidate.get_token (.success tok (some e)) now).1 = .ok tok ∧
      now < (a.invalidate.get_token (.success tok (some e)) now).2.1.token_expiry - 60) := by
  refine ⟨⟨?_, ?_⟩, ?_, ?_, ?_⟩
  · simp [AmadeusAuth.get_token, hv1, htok]
  · simp [AmadeusAuth.get_token, hv2, htok]
  · intro o now
    simp [AmadeusAuth.get_token, AmadeusAuth.invalidate, AmadeusAuth.is_token_valid]
  · simp only [AmadeusAuth.is_token_valid, htok] at hv1
    by_cases he : t.isEmpty
    · rw [if_pos he] at hv1
      exact Bool.noConfusion hv1
    · rw [if_neg he] at hv1
      exact of_decide_eq_true hv1
  · intro tok e now hgt
    constructor
    · simp [AmadeusAuth.get_token, AmadeusAuth.invalidate, AmadeusAuth.is_token_valid,
        AmadeusAuth.refresh_token]
    · simp only [AmadeusAuth.get_token, AmadeusAuth.invalidate, AmadeusAuth.is_token_valid,
        AmadeusAuth.refresh_token]
      simp
      omega

/-- Witness for C6 at a concrete valid credential and two probe instants
inside the skew window. -/
theorem c6_token_reuse_witness :
    ((AmadeusAuth.mk "k" "s" "test" (some "tok") 10000).token = some "tok") ∧
    ((AmadeusAuth.mk "k" "s" "test" (some "tok") 10000).is_token_valid 100 = true) ∧
    ((AmadeusAuth.mk "k" "s" "test" (some "tok") 10000).is_token_valid 200 = true) ∧
    ((AmadeusAuth.mk "k" "s" "test" (some "tok") 10000).get_token .transportError 100 =
      (.ok "tok", AmadeusAuth.mk "k" "s" "test" (some "tok") 10000, 0)) :=
  ⟨rfl, by decide, by decide,
    ((c6_token_reuse (AmadeusAuth.mk "k" "s" "test" (some "tok") 10000)
      .transportError .transportError 100 200 "tok" rfl (by decide) (by decide)).1).1⟩

/-- Claim C7: `_refresh_token` installs a new credential only on success —
a failing refresh (non-200 status, or a transport failure) signals
`AuthError` and leaves the previously stored token string and expiry
instant exactly as they were. -/
theorem c7_refresh_state_unchanged_on_error (a : AmadeusAuth) (now : Int) (st : Nat) :
    a.refresh_token (.httpError st) now = (.error .authError, a) ∧
    a.refresh_token .transportError now = (.error .authError, a) :=
  ⟨rfl, rfl⟩

/-- Claim C9 counterexample as stated: construction with a missing key, or
with an unknown environment, raises `AuthError` itself — the very class
that signals authentication failure — not a distinct `ConfigurationError`
(the source defines no such class). -/
theorem c9_construction_error_kind_counterexample :
    AmadeusAuth.init none (some "sec") (some "test") = .error .authError ∧
    AmadeusAuth.init (some "key") (some "sec") (some "staging") = .error .authError ∧
    PyErr.kind .authError = "AuthError" := by
  decide

/-- Claim C9 (amended): a missing/empty identity or secret, or an unknown
environment, fails eagerly at construction (the constructor performs no
request: it consults no network oracle, and a successful construction
starts with no token, deferring nothing) — but the error raised is
`AuthError`, the same kind as authentication failures, not a distinct
`ConfigurationError`; it is never `APIError`. -/
theorem c9_construction_eager (api_key api_secret : Option String) (env : Option String) :
    ((strFalsy api_key = true ∨ strFalsy api_secret = true) →
      AmadeusAuth.init api_key api_secret env = .error .authError) ∧
    ((strFalsy api_key = false ∧ strFalsy api_secret = false ∧
      envEffective env ≠ "test" ∧ envEffective env ≠ "production") →
      AmadeusAuth.init api_key api_secret env = .error .authError) ∧
    (∀ e : PyErr, AmadeusAuth.init api_key api_secret env = .error e →
      e = .authError ∧ e.kind = "AuthError") ∧
    (∀ a : AmadeusAuth, AmadeusAuth.init api_key api_secret env = .ok a →
      a.token = none ∧ a.token_expiry = 0) := by
  refine ⟨?_, ?_, ?_, ?_⟩
  · intro h
    unfold AmadeusAuth.init
    rcases h with h | h <;> simp [h]
  · intro ⟨h1, h2, h3, h4⟩
    unfold AmadeusAuth.init
    simp [h1, h2, h3, h4]
  · intro e he
    unfold AmadeusAuth.init at he
    by_cases h1 : strFalsy api_key || strFalsy api_secret
    · rw [if_pos h1] at he
      exact ⟨(Except.error.injEq _ _).mp he |>.symm, by
        have : e = PyErr.authError := (Except.error.injEq _ _).mp he |>.symm
        rw [this]
        rfl⟩
    · rw [if_neg h1] at he
      by_cases h2 : envEffective env ≠ "test" ∧ envEffective env ≠ "production"
      · rw [if_pos h2] at he
        exact ⟨(Except.error.injEq _ _).mp he |>.symm, by
          have : e = PyErr.authError := (Except.error.injEq _ _).mp he |>.symm
          rw [this]
          rfl⟩
      · rw [if_neg h2] at he
        exact Except.noConfusion he
  · intro a ha
    unfold AmadeusAuth.init at ha
    by_cases h1 : strFalsy api_key || strFalsy api_secret
    · rw [if_pos h1] at ha
      exact Except.noConfusion ha
    · rw [if_neg h1] at ha
      by_cases h2 : envEffective env ≠ "test" ∧ envEffective env ≠ "production"
      · rw [if_pos h2] at ha
        exact Except.noConfusion ha
      · rw [if_neg h2] at ha
        have : a = ⟨api_key.getD "", api_secret.getD "", envEffective env, none, 0⟩ :=
          ((Except.ok.injEq _ _).mp ha).symm
        rw [this]
        exact ⟨rfl, rfl⟩

/-- Witness for C9 at a concrete missing identity. -/
theorem c9_construction_eager_witness :
    (strFalsy none = true ∨ strFalsy (some "sec") = true) ∧
    AmadeusAuth.init none (some "sec") (some "production") = .error .authError :=
  ⟨Or.inl rfl,
    (c9_construction_eager none (some "sec") (some "production")).1 (Or.inl rfl)⟩

/-! ## Request-executor claims -/

/-- Claim C1 counterexample as stated: a double 401 terminates in
`APIError` with status 401 — not `AuthError` — though indeed with no third
transport attempt. -/
theorem c1_double_401_counterexample :
    (make_request (AmadeusAuth.mk "k" "s" "test" (some "tok") 10000)
      (none : Option (ResponseCache Nat))
      (World.mk (.resp 401 none) (.resp 401 none) (.success "t2" none)
        (.success "t2" none) 0)
      "GET" "/v2/shopping/flight-offers" [] true).result =
        .error (.apiError (some 401)) ∧
    (make_request (AmadeusAuth.mk "k" "s" "test" (some "tok") 10000)
      (none : Option (ResponseCache Nat))
      (World.mk (.resp 401 none) (.resp 401 none) (.success "t2" none)
        (.success "t2" none) 0)
      "GET" "/v2/shopping/flight-offers" [] true).result ≠ .error .authError ∧
    (make_request (AmadeusAuth.mk "k" "s" "test" (some "tok") 10000)
      (none : Option (ResponseCache Nat))
      (World.mk (.resp 401 none) (.resp 401 none) (.success "t2" none)
        (.success "t2" none) 0)
      "GET" "/v2/shopping/flight-offers" [] true).transport_calls = 2 := by
  decide

/-- Claim C1 (amended): when the first authenticated attempt returns 401
and the single retry after invalidation also returns 401 (the interim
token refresh succeeding), `_make_request` terminates with `APIError`
carrying status 401 — `AuthError` arises only when the refresh itself
fails — and no third transport attempt is made (exactly two transport
calls). -/
theorem c1_double_401_terminal {α : Type} (auth : AmadeusAuth)
    (cache : Option (ResponseCache α)) (w : World α) (method endpoint : String)
    (params : List (String × PVal)) (use_cache : Bool)
    (b1 b2 : Option α) (tok tok2 : String) (a1 : AmadeusAuth) (n1 : Nat)
    (e2 : Option Int)
    (hprobe : (cacheProbe cache w.now method endpoint params use_cache).1 = none)
    (h1 : w.attempt1 = .resp 401 b1)
    (h2 : w.attempt2 = .resp 401 b2)
    (hgt : auth.get_token w.refresh1 w.now = (.ok tok, a1, n1))
    (hr2 : w.refresh2 = .success tok2 e2) :
    (make_request auth cache w method endpoint params use_cache).result =
      .error (.apiError (some 401)) ∧
    (make_request auth cache w method endpoint params use_cache).transport_calls = 2 := by
  have hp : cacheProbe cache w.now method endpoint params use_cache =
      (none, (cacheProbe cache w.now method endpoint params use_cache).2) := by
    rw [← hprobe]
  have hgt2 : a1.invalidate.get_token w.refresh2 w.now =
      (.ok tok2, AmadeusAuth.mk a1.api_key a1.api_secret a1.env (some tok2)
        (w.now + e2.getD 1799), 1) := by
    simp [AmadeusAuth.get_token, AmadeusAuth.invalidate, AmadeusAuth.is_token_valid,
      AmadeusAuth.refresh_token, hr2]
  unfold make_request
  rw [hp]
  simp only [hgt, h1, h2, hgt2]
  constructor <;> simp [finishResponse]

/-- Witness for C1 at a concrete double-401 run with caching enabled and a
cold cache. -/
theorem c1_double_401_terminal_witness :
    ((cacheProbe (some (ResponseCache.init Nat 900 1000)) 5 "GET" "/x" [] true).1
      = none) ∧
    ((World.mk (α := Nat) (.resp 401 (some 3)) (.resp 401 (some 4))
      (.success "t1" none) (.success "t2" (some 1799)) 5).attempt1 = .resp 401 (some 3)) ∧
    ((AmadeusAuth.mk "k" "s" "test" (some "tok") 10000).get_token
      (.success "t1" none) 5 =
      (.ok "tok", AmadeusAuth.mk "k" "s" "test" (some "tok") 10000, 0)) ∧
    (make_request (AmadeusAuth.mk "k" "s" "test" (some "tok") 10000)
      (some (ResponseCache.init Nat 900 1000))
      (World.mk (.resp 401 (some 3)) (.resp 401 (some 4)) (.success "t1" none)
        (.success "t2" (some 1799)) 5)
      "GET" "/x" [] true).result = .error (.apiError (some 401)) ∧
    (make_request (AmadeusAuth.mk "k" "s" "test" (some "tok") 10000)
      (some (ResponseCache.init Nat 900 1000))
      (World.mk (.resp 401 (some 3)) (.resp 401 (some 4)) (.success "t1" none)
        (.success "t2" (some 1799)) 5)
      "GET" "/x" [] true).transport_calls = 2 := by
  have h := c1_double_401_terminal (AmadeusAuth.mk "k" "s" "test" (some "tok") 10000)
    (some (ResponseCache.init Nat 900 1000))
    (World.mk (.resp 401 (some 3)) (.resp 401 (some 4)) (.success "t1" none)
      (.success "t2" (some 1799)) 5)
    "GET" "/x" [] true (some 3) (some 4) "tok" "t2"
    (AmadeusAuth.mk "k" "s" "test" (some "tok") 10000) 0 (some 1799)
    (by decide) rfl rfl (by decide) rfl
  exact ⟨by decide, rfl, by decide, h.1, h.2⟩

/-- Claim C2 counterexample as stated: a transport failure is surfaced as
`APIError` (the same exception class as application errors, merely with no
status code) — there is no distinct `TransportFailure` kind in the source,
so transport failures and application errors are coerced into one kind. -/
theorem c2_transport_coercion_counterexample :
    (make_request (AmadeusAuth.mk "k" "s" "test" (some "tok") 10000)
      (none : Option (ResponseCache Nat))
      (World.mk .netFail (.resp 200 (some 7)) (.success "t2" none)
        (.success "t2" none) 0)
      "GET" "/x" [] true).result = .error (.apiError none) ∧
    (make_request (AmadeusAuth.mk "k" "s" "test" (some "tok") 10000)
      (none : Option (ResponseCache Nat))
      (World.mk (.resp 500 none) .netFail (.success "t2" none)
        (.success "t2" none) 0)
      "GET" "/x" [] true).result = .error (.apiError (some 500)) ∧
    PyErr.kind (.apiError none) = PyErr.kind (.apiError (some 500)) := by
  decide

/-- Claim C2 (amended): the source defines no `TransportFailure` kind — a
transport-layer failure on the first attempt is surfaced as `APIError`
with no status code, the same exception class as application errors;
`AuthError` remains a distinct kind. -/
theorem c2_transport_failure_api_error {α : Type} (auth : AmadeusAuth)
    (cache : Option (ResponseCache α)) (w : World α) (method endpoint : String)
    (params : List (String × PVal)) (use_cache : Bool)
    (tok : String) (a1 : AmadeusAuth) (n1 : Nat)
    (hprobe : (cacheProbe cache w.now method endpoint params use_cache).1 = none)
    (hgt : auth.get_token w.refresh1 w.now = (.ok tok, a1, n1))
    (hnet : w.attempt1 = .netFail) :
    (make_request auth cache w method endpoint params use_cache).result =
      .error (.apiError none) ∧
    PyErr.kind (.apiError none) = PyErr.kind (.apiError (some 500)) ∧
    PyErr.kind .authError ≠ PyErr.kind (.apiError none) := by
  have hp : cacheProbe cache w.now method endpoint params use_cache =
      (none, (cacheProbe cache w.now method endpoint params use_cache).2) := by
    rw [← hprobe]
  refine ⟨?_, rfl, by decide⟩
  unfold make_request
  rw [hp]
  simp only [hgt, hnet]

/-- Witness for C2 at a concrete connection failure. -/
theorem c2_transport_failure_api_error_witness :
    ((cacheProbe (none : Option (ResponseCache Nat)) 0 "GET" "/x" [] true).1 = none) ∧
    ((World.mk (α := Nat) .netFail (.resp 200 (some 7)) (.success "t" none)
      (.success "t" none) 0).attempt1 = .netFail) ∧
    (make_request (AmadeusAuth.mk "k" "s" "test" (some "tok") 10000)
      (none : Option (ResponseCache Nat))
      (World.mk .netFail (.resp 200 (some 7)) (.success "t" none)
        (.success "t" none) 0)
      "GET" "/x" [] true).result = .error (.apiError none) := by
  have h := c2_transport_failure_api_error
    (AmadeusAuth.mk "k" "s" "test" (some "tok") 10000)
    (none : Option (ResponseCache Nat))
    (World.mk .netFail (.resp 200 (some 7)) (.success "t" none) (.success "t" none) 0)
    "GET" "/x" [] true "tok" (AmadeusAuth.mk "k" "s" "test" (some "tok") 10000) 0
    rfl (by decide) rfl
  exact ⟨rfl, rfl, h.1⟩

/-- Claim C8: a POST request, a request with `use_cache = false`, and a
request on a client with caching disabled neither read nor write the
`ResponseCache`: the cache state (hence `stats().total_entries`) is
unchanged across the call. -/
theorem c8_non_cacheable_never_touches_cache {α : Type} (auth : AmadeusAuth)
    (cache : Option (ResponseCache α)) (w : World α) (method endpoint : String)
    (params : List (String × PVal)) (use_cache : Bool)
    (h : method = "POST" ∨ use_cache = false ∨ cache = none) :
    (make_request auth cache w method endpoint params use_cache).cache = cache := by
  have hprobe : cacheProbe cache w.now method endpoint params use_cache = (none, cache) := by
    rcases h with h | h | h
    · subst h
      cases cache with
      | none => rfl
      | some cc => rfl
    · subst h
      cases cache with
      | none => rfl
      | some cc => simp [cacheProbe, Bool.and_false]
    · subst h
      rfl
  have hfin : ∀ (auth' : AmadeusAuth) (st : Nat) (body : Option α) (tc rc : Nat),
      (finishResponse auth' cache w.now method endpoint params use_cache st body tc rc).cache
        = cache := by
    intro auth' st body tc rc
    unfold finishResponse
    by_cases hst : 400 ≤ st
    · rw [if_pos hst]
    · rw [if_neg hst]
      cases body with
      | none => rfl
      | some v =>
          simp only []
          rcases h with h | h | h
          · subst h
            cases cache with
            | none => rfl
            | some cc => rfl
          · subst h
            cases cache with
            | none => rfl
            | some cc => simp [Bool.and_false]
          · subst h
            rfl
  unfold make_request
  rw [hprobe]
  rcases hgt : auth.get_token w.refresh1 w.now with ⟨r1, a1, m1⟩
  cases r1 with
  | error e => simp [hgt]
  | ok tok =>
      cases hat1 : w.attempt1 with
      | netFail => simp [hgt, hat1]
      | resp st1 body1 =>
          cases hb : (st1 == 401) with
          | false => simp [hgt, hat1, hb, hfin]
          | true =>
              rcases hgt2 : a1.invalidate.get_token w.refresh2 w.now with ⟨r2, a2, m2⟩
              cases r2 with
              | error e => simp [hgt, hat1, hb, hgt2]
              | ok tok2 =>
                  cases hat2 : w.attempt2 with
                  | netFail => simp [hgt, hat1, hb, hgt2, hat2]
                  | resp st2 body2 => simp [hgt, hat1, hb, hgt2, hat2, hfin]

/-- Witness for C8 at a concrete POST to the pricing endpoint with a
non-empty cache. -/
theorem c8_non_cacheable_never_touches_cache_witness :
    (("POST" : String) = "POST" ∨ (true : Bool) = false ∨
      (some ((ResponseCache.init Nat 900 1000).set "k" 5 none 0) :
        Option (ResponseCache Nat)) = none) ∧
    (make_request (AmadeusAuth.mk "k" "s" "test" (some "tok") 10000)
      (some ((ResponseCache.init Nat 900 1000).set "k" 5 none 0))
      (World.mk (.resp 200 (some 7)) .netFail (.success "t" none) (.success "t" none) 1)
      "POST" "/v1/shopping/flight-offers/pricing" [] true).cache =
      some ((ResponseCache.init Nat 900 1000).set "k" 5 none 0) :=
  ⟨Or.inl rfl,
    c8_non_cacheable_never_touches_cache
      (AmadeusAuth.mk "k" "s" "test" (some "tok") 10000)
      (some ((ResponseCache.init Nat 900 1000).set "k" 5 none 0))
      (World.mk (.resp 200 (some 7)) .netFail (.success "t" none) (.success "t" none) 1)
      "POST" "/v1/shopping/flight-offers/pricing" [] true (Or.inl rfl)⟩

end Amadeus
